import Mathlib

/-!
Verification of the alert escalation and dedup-state engine of the
go-jijin-monitor repository (src/main.go), against its specification.

The Go program works on `big.Float` values (binary floating point with a
64-bit mantissa for values produced by `SetString`/`UnmarshalJSON`) and on
`float64` (53-bit mantissa) inside `IsFibonacciSequence`.  Both are modelled
by exact rationals together with an explicit round-to-nearest-even rounding
function `fround` at the corresponding mantissa width.  Out-of-bounds array
accesses and nil-pointer dereferences (which panic in Go, killing the
process) are modelled by `Option`, with `none` standing for a panic.
-/

namespace Monitor

/-- Round a rational to the nearest integer, ties to even — the rounding mode
used by Go's `big.Float` (`ToNearestEven`) and by IEEE-754 `float64`. -/
def roundNearestEven (x : ℚ) : ℤ :=
  if x - ⌊x⌋ < 1/2 then ⌊x⌋
  else if 1/2 < x - ⌊x⌋ then ⌊x⌋ + 1
  else if Even ⌊x⌋ then ⌊x⌋ else ⌊x⌋ + 1

/-- Round a rational to a binary floating-point value with a `prec`-bit
mantissa, round to nearest, ties to even.  `prec = 64` models `big.Float`
values built by `SetString` (whose precision defaults to 64), `prec = 53`
models `float64` (the result of `big.Float.Float64`).  The exponent is
unbounded, which is faithful for `big.Float` and agrees with `float64` on
every value arising in this development (all far from overflow/denormal
range). -/
def fround (prec : ℕ) (q : ℚ) : ℚ :=
  if q = 0 then 0
  else
    (roundNearestEven (q * 2 ^ ((prec : ℤ) - 1 - Int.log 2 |q|)) : ℚ) *
      2 ^ (Int.log 2 |q| + 1 - (prec : ℤ))

/-- `big.Float.Cmp`: `.lt`/`.eq`/`.gt` model the Go results `-1`/`0`/`+1`. -/
def Cmp (x y : ℚ) : Ordering :=
  if x < y then .lt else if y < x then .gt else .eq

/-- LogData 通知记录结构体 (per-(instrument, day) alert state). -/
structure LogData where
  InitPrice : Bool
  UpIndex : ℕ
  DownIndex : ℕ
deriving DecidableEq

/-- The global `LogMap`, modelled as an association list from the string key
`code ++ day` to the stored record (Go's `map[string]*LogData`). -/
abbrev LogMap := List (String × LogData)

/-- Map lookup (`data, ok := m[key]`). -/
def getEntry {α : Type} : List (String × α) → String → Option α
  | [], _ => none
  | (k, v) :: rest, key => if k = key then some v else getEntry rest key

/-- Map store (`m[key] = v`): replaces the entry if present, inserts it
otherwise. -/
def setEntry {α : Type} : List (String × α) → String → α → List (String × α)
  | [], key, v => [(key, v)]
  | (k, w) :: rest, key, v =>
    if k = key then (k, v) :: rest else (k, w) :: setEntry rest key v

/-- GetLogData 获取当天的LogData.  `day` is `time.Now().Format("2006-01-02")`,
passed explicitly since the model is pure.  Looks up `code ++ day`, lazily
inserting a zero-valued record when absent; returns the record together with
the (possibly extended) map — Go returns a pointer into the map, so the model
threads the map state. -/
def GetLogData (code day : String) (st : LogMap) : LogData × LogMap :=
  match getEntry st (code ++ day) with
  | some data => (data, st)
  | none => (⟨false, 0, 0⟩, setEntry st (code ++ day) ⟨false, 0, 0⟩)

/-- The `UpIndex` stored for `key`, reading absent entries as the zero value
a fresh record would carry. -/
def storedUp (st : LogMap) (key : String) : ℕ :=
  match getEntry st key with
  | some d => d.UpIndex
  | none => 0

/-- The `DownIndex` stored for `key` (absent entries read as 0). -/
def storedDown (st : LogMap) (key : String) : ℕ :=
  match getEntry st key with
  | some d => d.DownIndex
  | none => 0

/-- The `InitPrice` flag stored for `key` (absent entries read as `false`). -/
def storedFlag (st : LogMap) (key : String) : Bool :=
  match getEntry st key with
  | some d => d.InitPrice
  | none => false

/-- The fields of `JSONData` consulted by the alerting logic.  The price
fields hold the exact values of the `big.Float` quote fields (parsed at
precision 64 by `UnmarshalJSON`); the carried-but-unused fields
(high/low/volume/…) are omitted. -/
structure JSONData where
  Name : String
  Trade : ℚ
  Settlement : ℚ
  Open : ℚ
  Code : String
deriving DecidableEq

/-- CodeRule 监控基金结构体.  `none` in `Up`/`Down` models the nil
`*big.Float` produced when `SetString` fails in `parseCodes` (its error is
discarded there). -/
structure CodeRule where
  Code : String
  Up : Option ℚ
  Down : Option ℚ
deriving DecidableEq

/-- The value placed in slot `i` by `generateFibonacciSequence`:
`fib[0] = 1`, `fib[1] = 2`, `fib[i] = fib[i-1] + fib[i-2]`. -/
def fibVal : ℕ → ℤ
  | 0 => 1
  | 1 => 2
  | n + 2 => fibVal (n + 1) + fibVal n

/-- 生成前N位斐波那契数列 [1 2 3 5 8 13 21 34 55 89 ...] — the length-`n`
array written by the Go loop (only ever called with `n = 20`). -/
def generateFibonacciSequence (n : ℕ) : List ℤ :=
  (List.range n).map fibVal

/-- 生成前10位斐波那契 (the comment in the source is stale: it builds 20). -/
def fibonacciSequence : List ℤ :=
  generateFibonacciSequence 20

/-- The threshold `base * float64(fibonacciSequence[i])` computed inside
`IsFibonacciSequence`: `base` is the `float64` conversion of the
`baseThreshold` argument, the multiplication rounds to `float64` again.
Conversion of the (small) ladder integer to `float64` is exact. -/
def triggerValue (baseThreshold : ℚ) (m : ℤ) : ℚ :=
  fround 53 (fround 53 baseThreshold * (m : ℚ))

/-- IsFibonacciSequence 判断斐波那契数列通知倍数 返回索引.
`currentChange` and `baseThreshold` are converted to `float64` (`fround 53`);
the indexing `fibonacciSequence[currentThresholdIndex]` has no bound check in
the source, so an out-of-range index panics — modelled by `none`. -/
def IsFibonacciSequence (currentChange baseThreshold : ℚ) (fibonacciSequence : List ℤ)
    (currentThresholdIndex : ℕ) : Option ℕ :=
  (fibonacciSequence.get? currentThresholdIndex).map fun m =>
    if |fround 53 currentChange| ≥ triggerValue baseThreshold m then
      currentThresholdIndex + 1
    else
      currentThresholdIndex

/-- A successful call to `IsFibonacciSequence` implies the index was in
bounds, and returns either the index or its successor. -/
theorem isFib_some {currentChange baseThreshold : ℚ} {fib : List ℤ} {idx j : ℕ}
    (h : IsFibonacciSequence currentChange baseThreshold fib idx = some j) :
    idx < fib.length ∧ (j = idx ∨ j = idx + 1) := by
  unfold IsFibonacciSequence at h
  rcases Option.map_eq_some'.mp h with ⟨m, hg, hf⟩
  refine ⟨(List.get?_eq_some.mp hg).1, ?_⟩
  split at hf <;> omega

/-- The `for { ... }` retry loop inside `IsUpDownPrice`: repeatedly call
`IsFibonacciSequence`, storing the new index while it advances, stopping when
it returns the index unchanged.  `none` models the panic that occurs when the
loop walks past the end of the ladder. -/
def ratchetLoop (ratio baseThreshold : ℚ) (fib : List ℤ) (idx : ℕ) : Option ℕ :=
  match h : IsFibonacciSequence ratio baseThreshold fib idx with
  | none => none
  | some index =>
    if hne : index ≠ idx then ratchetLoop ratio baseThreshold fib index else some idx
termination_by fib.length - idx
decreasing_by
  have h1 := isFib_some h
  omega

/-- calculatePercentageChange 计算价格1和价格2的价差百分比:
`(price1 - price2) / price1 * 100`, each `big.Float` operation rounding at
precision 64 (the precision the operands carry from `SetString` /
`UnmarshalJSON`).  Division by a zero `price1` (Go: `Quo` yields ±Inf, or
panics for 0/0) does not occur at any price used in this development. -/
def calculatePercentageChange (price1 price2 : ℚ) : ℚ :=
  fround 64 (fround 64 (fround 64 (price1 - price2) / price1) * 100)

/-- 特殊数字字符表 -/
def specialDigits : List Char :=
  ['𝟬', '𝟭', '𝟮', '𝟯', '𝟰', '𝟱', '𝟲', '𝟳', '𝟴', '𝟵']

/-- 替换函数：将普通数字替换为特殊数字. -/
def r (input : String) : String :=
  String.mk (input.data.map fun char =>
    if char.isDigit then specialDigits.getD (char.toNat - 48) char else char)

/-- `big.Float.Text('f', 2)`: render the exact (binary) value with two
fractional decimal digits, correctly rounded (ties to even; no value in this
development sits on a decimal tie). -/
def text2 (q : ℚ) : String :=
  (if roundNearestEven (q * 100) < 0 then "-" else "") ++
    toString ((roundNearestEven (q * 100)).natAbs / 100) ++ "." ++
    (if (roundNearestEven (q * 100)).natAbs % 100 < 10 then "0" else "") ++
    toString ((roundNearestEven (q * 100)).natAbs % 100)

/-- IsInitPrice 每天第一次计算昨收和今开的差，跌就通知，每天只通知一次.
Returns the updated map and accumulated output (`logStr` is a `*string` in
Go).  Note that the emission guard tests only the `InitPrice` flag — the
classification `s` may be empty (prior close = open) and a line is appended
all the same. -/
def IsInitPrice (dataItem : JSONData) (day : String) (st : LogMap) (logStr : String) :
    LogMap × String :=
  let ratio := calculatePercentageChange dataItem.Open dataItem.Settlement
  let s := match Cmp dataItem.Settlement dataItem.Open with
    | .lt => "🔴高开"
    | .eq => ""
    | .gt => "🟢低开"
  if !(GetLogData dataItem.Code day st).1.InitPrice then
    (setEntry (GetLogData dataItem.Code day st).2 (dataItem.Code ++ day)
      { (GetLogData dataItem.Code day st).1 with InitPrice := true },
     logStr ++ "【" ++ dataItem.Name ++ "】" ++ s ++ " " ++ r (text2 ratio) ++ "%\n\n")
  else
    ((GetLogData dataItem.Code day st).2, logStr)

/-- IsUpDownPrice 判断今开和当前价格差.  The up branch runs the ratchet loop
on `UpIndex` with `codeItem.Up`, the down branch on `DownIndex` with
`codeItem.Down`; a line is emitted iff the loop advanced the stored index.
`none` models a panic: either the ladder-exhaustion panic inside the loop or
the nil-pointer dereference when the rule's threshold failed to parse. -/
def IsUpDownPrice (codeItem : CodeRule) (dataItem : JSONData) (day : String)
    (st : LogMap) (logStr : String) : Option (LogMap × String) :=
  let ratio := calculatePercentageChange dataItem.Trade dataItem.Open
  match Cmp dataItem.Open dataItem.Trade with
  | .lt =>
    match codeItem.Up with
    | none => none
    | some up =>
      match ratchetLoop ratio up fibonacciSequence (GetLogData dataItem.Code day st).1.UpIndex with
      | none => none
      | some index =>
        if index ≠ (GetLogData dataItem.Code day st).1.UpIndex then
          some (setEntry (GetLogData dataItem.Code day st).2 (dataItem.Code ++ day)
            { (GetLogData dataItem.Code day st).1 with UpIndex := index },
            logStr ++ "【" ++ dataItem.Name ++ "】🔴日内 " ++ r (text2 ratio) ++ "%\n\n")
        else
          some ((GetLogData dataItem.Code day st).2, logStr)
  | .eq => some (st, logStr)
  | .gt =>
    match codeItem.Down with
    | none => none
    | some down =>
      match ratchetLoop ratio down fibonacciSequence (GetLogData dataItem.Code day st).1.DownIndex with
      | none => none
      | some index =>
        if index ≠ (GetLogData dataItem.Code day st).1.DownIndex then
          some (setEntry (GetLogData dataItem.Code day st).2 (dataItem.Code ++ day)
            { (GetLogData dataItem.Code day st).1 with DownIndex := index },
            logStr ++ "【" ++ dataItem.Name ++ "】🟢日内 " ++ r (text2 ratio) ++ "%\n\n")
        else
          some ((GetLogData dataItem.Code day st).2, logStr)

/-- Accumulate the value and digit count of a run of decimal digits; fails on
any non-digit character. -/
def parseDigitsAux : List Char → ℕ → ℕ → Option (ℕ × ℕ)
  | [], v, n => some (v, n)
  | c :: cs, v, n =>
    if c.isDigit then parseDigitsAux cs (v * 10 + (c.toNat - 48)) (n + 1) else none

/-- Modelled from the Go standard library `big.Float.SetString` value syntax
(called by `parseCodes` and `stringToBigFloat`), restricted to the plain
decimal forms it accepts — optional sign, decimal digits with at most one
point, at least one digit.  Exponent, hexadecimal and infinity forms do not
occur in this repository's inputs.  Returns the exact decimal value. -/
def parseDecimal (s : String) : Option ℚ :=
  let signed : ℚ × List Char :=
    match s.data with
    | '+' :: cs => (1, cs)
    | '-' :: cs => (-1, cs)
    | cs => (1, cs)
  match signed.2.splitOn '.' with
  | [ip] =>
    match parseDigitsAux ip 0 0 with
    | some (v, n) => if n = 0 then none else some (signed.1 * v)
    | none => none
  | [ip, fp] =>
    match parseDigitsAux ip 0 0, parseDigitsAux fp 0 0 with
    | some (vi, ni), some (vf, nf) =>
      if ni + nf = 0 then none else some (signed.1 * ((vi : ℚ) + (vf : ℚ) / 10 ^ nf))
    | _, _ => none
  | _ => none

/-- `new(big.Float).SetString(s)`: parse and round to the default precision
64; `none` is the nil pointer returned on a parse failure. -/
def setStringModel (s : String) : Option ℚ :=
  (parseDecimal s).map (fround 64)

/-- The body of the `parseCodes` loop over the comma-separated items: an item
with exactly 3 dash-separated fields becomes a rule (the `SetString` errors
being discarded), anything else is skipped. -/
def parseCodesItems : List (List Char) → List CodeRule
  | [] => []
  | item :: items =>
    match item.splitOn '-' with
    | [p0, p1, p2] =>
      { Code := String.mk p0,
        Up := setStringModel (String.mk p1),
        Down := setStringModel (String.mk p2) } :: parseCodesItems items
    | _ => parseCodesItems items

/-- 解析参数字符串为 CodeRule 结构体切片. -/
def parseCodes (codes : String) : List CodeRule :=
  parseCodesItems (codes.data.splitOn ',')

/-- 将 JSONData 切片转换为 map (keyed by `Code`, later items overriding). -/
def convertToMap (data : List JSONData) : List (String × JSONData) :=
  data.foldl (fun resultMap item => setEntry resultMap item.Code item) []

/-- The `for _, codeItem := range codeArr` loop at the end of `Task`: run
both checks for each rule whose code is found, append the not-found line
otherwise.  `none` propagates a panic from `IsUpDownPrice`. -/
def evalRules (day : String) (dataMap : List (String × JSONData)) :
    List CodeRule → LogMap → String → Option (LogMap × String)
  | [], st, logStr => some (st, logStr)
  | codeItem :: rest, st, logStr =>
    match getEntry dataMap codeItem.Code with
    | some item =>
      match IsUpDownPrice codeItem item day (IsInitPrice item day st logStr).1
          (IsInitPrice item day st logStr).2 with
      | none => none
      | some (st2, l2) => evalRules day dataMap rest st2 l2
    | none =>
      evalRules day dataMap rest st
        (logStr ++ "code参数错误！没有找到该【" ++ codeItem.Code ++ "】对应的基金\n\n")

/-- One `Task` invocation.  The two `fetchFundData` calls perform network
I/O, so their results (quote list or error text) are inputs of the model.
On a fetch error the error line is appended and `Task` returns early —
nothing else is evaluated that cycle. -/
def Task (codes : String) (etfResult lofResult : Except String (List JSONData))
    (day : String) (st : LogMap) (logStr : String) : Option (LogMap × String) :=
  let codeArr := parseCodes codes
  match etfResult with
  | .error err => some (st, logStr ++ "从【ETF基金】Api获取数据时出错：" ++ err ++ "\n\n")
  | .ok data1 =>
    match lofResult with
    | .error err => some (st, logStr ++ "从【LOF基金】Api获取数据时出错：" ++ err ++ "\n\n")
    | .ok data2 =>
      evalRules day (convertToMap (data1 ++ data2)) codeArr st logStr

/-- SendWx: posts the text to the WeChat webhook.  `deliveryError` abstracts
whether `http.DefaultClient.Do` returned an error; in that case the source
calls `log.Fatalf`, which logs and then terminates the whole process.  The
result is `true` iff the process survives the call. -/
def SendWx (text : String) (deliveryError : Bool) : Bool :=
  !deliveryError

/-- PrintLog: `log.Println` then `SendWx`. -/
def PrintLog (msg : String) (deliveryError : Bool) : Bool :=
  SendWx msg deliveryError

/-- `strings.TrimSuffix`. -/
def trimSuffix (s suffix : String) : String :=
  if s.endsWith suffix then s.dropRight suffix.length else s

/-- The inputs one ticker cycle consumes from the outside world: the two
fetch results, the current calendar day, and whether webhook delivery would
fail this cycle. -/
structure CycleInput where
  etf : Except String (List JSONData)
  lof : Except String (List JSONData)
  day : String
  deliveryError : Bool

/-- Outcome of one iteration of the ticker loop in `main`. -/
inductive CycleOutcome
  /-- The cycle finished and the process keeps running. -/
  | ran (st : LogMap)
  /-- `log.Fatalf` inside `SendWx` terminated the process. -/
  | exited (st : LogMap)
  /-- A runtime panic (ladder exhaustion / nil threshold) killed the process. -/
  | panicked
deriving DecidableEq

/-- One iteration of the `select`/ticker loop in `main`: run `Task` with an
empty `logStr`, and if output accumulated, deliver it via `PrintLog` (with
the trailing blank separator trimmed). -/
def mainStep (codes : String) (inp : CycleInput) (st : LogMap) : CycleOutcome :=
  match Task codes inp.etf inp.lof inp.day st "" with
  | none => .panicked
  | some (st1, logStr) =>
    if logStr ≠ "" then
      if PrintLog (trimSuffix logStr "\n\n") inp.deliveryError then .ran st1 else .exited st1
    else
      .ran st1

/-- The ticker loop of `main` over a finite schedule of cycles: runs cycles
until the schedule ends (result `true`: the process is still running and will
keep starting cycles) or the process dies (`false`). -/
def runMain (codes : String) : List CycleInput → LogMap → LogMap × Bool
  | [], st => (st, true)
  | inp :: rest, st =>
    match mainStep codes inp st with
    | .ran st1 => runMain codes rest st1
    | .exited st1 => (st1, false)
    | .panicked => (st, false)

/-! ### Properties of the rounding model -/

/-- `roundNearestEven` returns the unique integer within distance `1/2`
when the input is not a tie. -/
theorem roundNE_eq_of_near {x : ℚ} {n : ℤ} (h1 : (n : ℚ) - 1/2 < x) (h2 : x < n + 1/2) :
    roundNearestEven x = n := by
  unfold roundNearestEven
  rcases le_or_lt (n : ℚ) x with hle | hlt
  · have hf : ⌊x⌋ = n := by
      rw [Int.floor_eq_iff]
      constructor
      · exact hle
      · push_cast; linarith
    rw [hf, if_pos (by push_cast; linarith)]
  · have hf : ⌊x⌋ = n - 1 := by
      rw [Int.floor_eq_iff]
      constructor
      · push_cast; linarith
      · push_cast; linarith
    rw [hf, if_neg (by push_cast; linarith), if_pos (by push_cast; linarith)]
    omega

/-- Rounding to the nearest integer moves the value by at most `1/2`. -/
theorem roundNE_near (x : ℚ) : |(roundNearestEven x : ℚ) - x| ≤ 1/2 := by
  have hf1 := Int.floor_le x
  have hf2 := Int.lt_floor_add_one x
  unfold roundNearestEven
  split_ifs with ha hb hc <;> rw [abs_le] <;> constructor <;> push_cast at * <;> linarith

/-- `Int.log 2` is determined by a power-of-two bracketing. -/
theorem intLog_eq_of {q : ℚ} {e : ℤ} (hq : 0 < q)
    (h1 : (2:ℚ) ^ e ≤ q) (h2 : q < (2:ℚ) ^ (e + 1)) : Int.log 2 q = e := by
  have h1' : ((2:ℕ) : ℚ) ^ e ≤ q := by push_cast; exact h1
  have h2' : q < ((2:ℕ) : ℚ) ^ (e + 1) := by push_cast; exact h2
  have ha := (Int.zpow_le_iff_le_log (by norm_num) hq).mp h1'
  have hb := (Int.lt_zpow_iff_log_lt (by norm_num) hq).mp h2'
  omega

/-- Evaluation rule for `fround`: given the binade `2^e ≤ q < 2^(e+1)` and
the nearest scaled integer `n`, the rounded value is `n * 2^(e+1-p)`. -/
theorem fround_eq_of {p : ℕ} {q : ℚ} {e n : ℤ} (hq : 0 < q)
    (h1 : (2:ℚ) ^ e ≤ q) (h2 : q < (2:ℚ) ^ (e + 1))
    (hn1 : (n : ℚ) - 1/2 < q * 2 ^ ((p : ℤ) - 1 - e))
    (hn2 : q * 2 ^ ((p : ℤ) - 1 - e) < n + 1/2) :
    fround p q = n * 2 ^ (e + 1 - (p : ℤ)) := by
  have hlog : Int.log 2 |q| = e := by
    rw [abs_of_pos hq]; exact intLog_eq_of hq h1 h2
  unfold fround
  rw [if_neg hq.ne', hlog, roundNE_eq_of_near hn1 hn2]

/-- Relative error of `fround`: rounding to a `p`-bit mantissa changes the
value by at most `|q| * 2^(-p)`. -/
theorem fround_error (p : ℕ) (q : ℚ) : |fround p q - q| ≤ |q| * 2 ^ (-(p : ℤ)) := by
  unfold fround
  split_ifs with h0
  · subst h0; simp
  · have hq : 0 < |q| := abs_pos.mpr h0
    set e := Int.log 2 |q| with he
    set k : ℤ := (p : ℤ) - 1 - e with hk
    have h2 : (2:ℚ) ≠ 0 := by norm_num
    have hqeq : q * 2 ^ k * 2 ^ (e + 1 - (p : ℤ)) = q := by
      rw [mul_assoc, ← zpow_add₀ h2]
      have : k + (e + 1 - (p : ℤ)) = 0 := by rw [hk]; ring
      rw [this, zpow_zero, mul_one]
    have hsplit : (roundNearestEven (q * 2 ^ k) : ℚ) * 2 ^ (e + 1 - (p : ℤ)) - q
        = ((roundNearestEven (q * 2 ^ k) : ℚ) - q * 2 ^ k) * 2 ^ (e + 1 - (p : ℤ)) := by
      rw [sub_mul, hqeq]
    have hpos : (0:ℚ) < 2 ^ (e + 1 - (p : ℤ)) := zpow_pos (by norm_num) _
    rw [hsplit, abs_mul, abs_of_pos hpos]
    calc |(roundNearestEven (q * 2 ^ k) : ℚ) - q * 2 ^ k| * 2 ^ (e + 1 - (p : ℤ))
        ≤ (1/2) * 2 ^ (e + 1 - (p : ℤ)) := by
          exact mul_le_mul_of_nonneg_right (roundNE_near _) hpos.le
      _ = 2 ^ e * 2 ^ (-(p : ℤ)) := by
          rw [show (1/2 : ℚ) = 2 ^ (-1 : ℤ) by norm_num,
            ← zpow_add₀ h2, ← zpow_add₀ h2]
          congr 1
          ring
      _ ≤ |q| * 2 ^ (-(p : ℤ)) := by
          have hle : (2:ℚ) ^ e ≤ |q| := by
            have := Int.zpow_log_le_self (b := 2) (by norm_num) hq
            push_cast at this
            rwa [← he] at this
          have hp2 : (0:ℚ) < 2 ^ (-(p : ℤ)) := zpow_pos (by norm_num) _
          exact mul_le_mul_of_nonneg_right hle hp2.le

/-! ### Properties of the state map -/

theorem getEntry_setEntry_self {α : Type} (st : List (String × α)) (key : String) (v : α) :
    getEntry (setEntry st key v) key = some v := by
  induction st with
  | nil => simp [getEntry, setEntry]
  | cons hd tl ih =>
    obtain ⟨k, w⟩ := hd
    by_cases hkey : k = key
    · simp [getEntry, setEntry, hkey]
    · simp [getEntry, setEntry, hkey, ih]

theorem getEntry_setEntry_ne {α : Type} (st : List (String × α)) (key k : String) (v : α)
    (h : k ≠ key) : getEntry (setEntry st key v) k = getEntry st k := by
  induction st with
  | nil => simp [getEntry, setEntry, Ne.symm h]
  | cons hd tl ih =>
    obtain ⟨k', w⟩ := hd
    by_cases hkey : k' = key
    · have hk'k : ¬ (k' = k) := fun hh => h (hh ▸ hkey)
      simp only [setEntry, if_pos hkey, getEntry, if_neg hk'k]
    · simp only [setEntry, if_neg hkey, getEntry]
      by_cases hk'k : k' = k
      · simp [hk'k]
      · simp [hk'k, ih]

/-! ### Properties of the ratchet loop -/

/-- If `IsFibonacciSequence` advanced, the loop continues from the new
index. -/
theorem ratchetLoop_adv {ratio b : ℚ} {fib : List ℤ} {i : ℕ}
    (h : IsFibonacciSequence ratio b fib i = some (i + 1)) :
    ratchetLoop ratio b fib i = ratchetLoop ratio b fib (i + 1) := by
  rw [ratchetLoop.eq_def]
  split
  · rename_i heq
    rw [heq] at h
    exact absurd h (by simp)
  · rename_i index heq
    rw [heq] at h
    have hidx : index = i + 1 := by injection h
    subst hidx
    rw [dif_pos (by omega)]

/-- If `IsFibonacciSequence` kept the index, the loop stops there. -/
theorem ratchetLoop_stop {ratio b : ℚ} {fib : List ℤ} {i : ℕ}
    (h : IsFibonacciSequence ratio b fib i = some i) :
    ratchetLoop ratio b fib i = some i := by
  rw [ratchetLoop.eq_def]
  split
  · rename_i heq
    rw [heq] at h
    exact absurd h (by simp)
  · rename_i index heq
    rw [heq] at h
    have hidx : index = i := by injection h
    subst hidx
    rw [dif_neg (by omega)]

/-- The loop only ever moves the index upward. -/
theorem ratchetLoop_ge_aux (ratio b : ℚ) (fib : List ℤ) :
    ∀ (n i j : ℕ), fib.length - i ≤ n → ratchetLoop ratio b fib i = some j → i ≤ j := by
  intro n
  induction n with
  | zero =>
    intro i j hn h
    rw [ratchetLoop.eq_def] at h
    split at h
    · exact absurd h (by simp)
    · rename_i index heq
      have hb := isFib_some heq
      omega
  | succ n ih =>
    intro i j hn h
    rw [ratchetLoop.eq_def] at h
    split at h
    · exact absurd h (by simp)
    · rename_i index heq
      have hb := isFib_some heq
      by_cases hne : index = i
      · rw [dif_neg (by omega)] at h
        have : i = j := by injection h
        omega
      · rw [dif_pos (by omega)] at h
        have hidx : index = i + 1 := by omega
        subst hidx
        have := ih (i + 1) j (by omega) h
        omega

theorem ratchetLoop_ge {ratio b : ℚ} {fib : List ℤ} {i j : ℕ}
    (h : ratchetLoop ratio b fib i = some j) : i ≤ j :=
  ratchetLoop_ge_aux ratio b fib fib.length i j (by omega) h

/-- A normal (non-panicking) exit of the loop happens exactly at an index
where `IsFibonacciSequence` declines to advance. -/
theorem ratchetLoop_final_aux (ratio b : ℚ) (fib : List ℤ) :
    ∀ (n i j : ℕ), fib.length - i ≤ n → ratchetLoop ratio b fib i = some j →
      IsFibonacciSequence ratio b fib j = some j := by
  intro n
  induction n with
  | zero =>
    intro i j hn h
    rw [ratchetLoop.eq_def] at h
    split at h
    · exact absurd h (by simp)
    · rename_i index heq
      have hb := isFib_some heq
      omega
  | succ n ih =>
    intro i j hn h
    rw [ratchetLoop.eq_def] at h
    split at h
    · exact absurd h (by simp)
    · rename_i index heq
      have hb := isFib_some heq
      by_cases hne : index = i
      · rw [dif_neg (by omega)] at h
        have hij : i = j := by injection h
        subst hij
        subst hne
        exact heq
      · rw [dif_pos (by omega)] at h
        have hidx : index = i + 1 := by omega
        subst hidx
        exact ih (i + 1) j (by omega) h

theorem ratchetLoop_final {ratio b : ℚ} {fib : List ℤ} {i j : ℕ}
    (h : ratchetLoop ratio b fib i = some j) :
    IsFibonacciSequence ratio b fib j = some j :=
  ratchetLoop_final_aux ratio b fib fib.length i j (by omega) h

/-- An `IsFibonacciSequence` call that declines to advance did so because the
threshold test failed (the indexing succeeded and the move was below the
trigger). -/
theorem isFib_stop_inv {c b : ℚ} {fib : List ℤ} {i : ℕ}
    (h : IsFibonacciSequence c b fib i = some i) :
    ∃ m, fib.get? i = some m ∧ |fround 53 c| < triggerValue b m := by
  unfold IsFibonacciSequence at h
  rcases Option.map_eq_some'.mp h with ⟨m, hg, hf⟩
  refine ⟨m, hg, ?_⟩
  split at hf
  · omega
  · rename_i hc
    exact lt_of_not_ge hc

/-! ### Concrete evaluations

The recurring constants: `14757395258967641293 / 2^67` is the precision-64
`big.Float` value of the decimal string `"0.10"`; `7205759403792794 / 2^56`
(= `3602879701896397 / 2^55`) is its `float64` conversion; and
`11805916207174113034 / 2^70` is the precision-64 value of `"0.01"`. -/

theorem fibSeq_eval : fibonacciSequence = [1, 2, 3, 5, 8, 13, 21, 34, 55, 89,
    144, 233, 377, 610, 987, 1597, 2584, 4181, 6765, 10946] := by decide

theorem fround64_one : fround 64 (1 : ℚ) = 1 := by
  have h := fround_eq_of (p := 64) (q := 1) (e := 0) (n := 9223372036854775808)
    (by norm_num) (by norm_num) (by norm_num) (by norm_num) (by norm_num)
  rw [h]; norm_num

theorem fround64_two : fround 64 (2 : ℚ) = 2 := by
  have h := fround_eq_of (p := 64) (q := 2) (e := 1) (n := 9223372036854775808)
    (by norm_num) (by norm_num) (by norm_num) (by norm_num) (by norm_num)
  rw [h]; norm_num

theorem fround64_tenth : fround 64 (1/10 : ℚ) = 14757395258967641293 / 2 ^ 67 := by
  have h := fround_eq_of (p := 64) (q := 1/10) (e := -4) (n := 14757395258967641293)
    (by norm_num) (by norm_num) (by norm_num) (by norm_num) (by norm_num)
  rw [h]; norm_num

theorem fround64_fifth : fround 64 (1/5 : ℚ) = 14757395258967641293 / 2 ^ 66 := by
  have h := fround_eq_of (p := 64) (q := 1/5) (e := -3) (n := 14757395258967641293)
    (by norm_num) (by norm_num) (by norm_num) (by norm_num) (by norm_num)
  rw [h]; norm_num

theorem fround64_hundredth : fround 64 (1/100 : ℚ) = 11805916207174113034 / 2 ^ 70 := by
  have h := fround_eq_of (p := 64) (q := 1/100) (e := -7) (n := 11805916207174113034)
    (by norm_num) (by norm_num) (by norm_num) (by norm_num) (by norm_num)
  rw [h]; norm_num

theorem fround64_ratio10 :
    fround 64 ((14757395258967641293 / 2 ^ 67 : ℚ) * 100) = 10 := by
  have h := fround_eq_of (p := 64) (q := (14757395258967641293 / 2 ^ 67 : ℚ) * 100)
    (e := 3) (n := 11529215046068469760)
    (by norm_num) (by norm_num) (by norm_num) (by norm_num) (by norm_num)
  rw [h]; norm_num

theorem fround64_ratio20 :
    fround 64 ((14757395258967641293 / 2 ^ 66 : ℚ) * 100) = 20 := by
  have h := fround_eq_of (p := 64) (q := (14757395258967641293 / 2 ^ 66 : ℚ) * 100)
    (e := 4) (n := 11529215046068469760)
    (by norm_num) (by norm_num) (by norm_num) (by norm_num) (by norm_num)
  rw [h]; norm_num

theorem fround53_of64tenth :
    fround 53 (14757395258967641293 / 2 ^ 67 : ℚ) = 7205759403792794 / 2 ^ 56 := by
  have h := fround_eq_of (p := 53) (q := 14757395258967641293 / 2 ^ 67) (e := -4)
    (n := 7205759403792794)
    (by norm_num) (by norm_num) (by norm_num) (by norm_num) (by norm_num)
  rw [h]; norm_num

theorem fround53_f64tenth :
    fround 53 (7205759403792794 / 2 ^ 56 : ℚ) = 7205759403792794 / 2 ^ 56 := by
  have h := fround_eq_of (p := 53) (q := 7205759403792794 / 2 ^ 56) (e := -4)
    (n := 7205759403792794)
    (by norm_num) (by norm_num) (by norm_num) (by norm_num) (by norm_num)
  rw [h]; norm_num

theorem fround53_ten : fround 53 (10 : ℚ) = 10 := by
  have h := fround_eq_of (p := 53) (q := 10) (e := 3) (n := 5629499534213120)
    (by norm_num) (by norm_num) (by norm_num) (by norm_num) (by norm_num)
  rw [h]; norm_num

theorem fround53_twenty : fround 53 (20 : ℚ) = 20 := by
  have h := fround_eq_of (p := 53) (q := 20) (e := 4) (n := 5629499534213120)
    (by norm_num) (by norm_num) (by norm_num) (by norm_num) (by norm_num)
  rw [h]; norm_num

/-- `percentChange(a, a) = 0` exactly, rounding included. -/
theorem cpc_self (a : ℚ) : calculatePercentageChange a a = 0 := by
  simp [calculatePercentageChange, fround]

/-- A 10% move: open 9, trade 10 gives `(10-9)/10*100 = 10` exactly — every
rounding step is exact here. -/
theorem cpc_10_9 : calculatePercentageChange 10 9 = 10 := by
  unfold calculatePercentageChange
  rw [show (10:ℚ) - 9 = 1 by norm_num, fround64_one,
    show (1:ℚ)/10 = 1/10 from rfl, fround64_tenth, fround64_ratio10]

/-- A 20% move: open 8, trade 10 gives `(10-8)/10*100 = 20` exactly. -/
theorem cpc_10_8 : calculatePercentageChange 10 8 = 20 := by
  unfold calculatePercentageChange
  rw [show (10:ℚ) - 8 = 2 by norm_num, fround64_two,
    show (2:ℚ)/10 = 1/5 by norm_num, fround64_fifth, fround64_ratio20]

theorem setString_010 :
    setStringModel "0.10" = some (14757395258967641293 / 2 ^ 67) := by
  have hp : parseDecimal "0.10" = some (1 * (((0:ℕ) : ℚ) + ((10:ℕ) : ℚ) / 10 ^ (2:ℕ))) := rfl
  have hv : (1 * (((0:ℕ) : ℚ) + ((10:ℕ) : ℚ) / 10 ^ (2:ℕ))) = 1/10 := by push_cast; norm_num
  rw [setStringModel, hp, hv, Option.map_some', fround64_tenth]

theorem setString_001 :
    setStringModel "0.01" = some (11805916207174113034 / 2 ^ 70) := by
  have hp : parseDecimal "0.01" = some (1 * (((0:ℕ) : ℚ) + ((1:ℕ) : ℚ) / 10 ^ (2:ℕ))) := rfl
  have hv : (1 * (((0:ℕ) : ℚ) + ((1:ℕ) : ℚ) / 10 ^ (2:ℕ))) = 1/100 := by push_cast; norm_num
  rw [setStringModel, hp, hv, Option.map_some', fround64_hundredth]

/-- Upper bound on the computed trigger `base * ladder[i]` for the loaded
base `"0.10"`, via the `float64` relative-error bound. -/
theorem trigger010_le {m : ℤ} {t : ℚ} (hm : (0:ℚ) < m)
    (h : (7205759403792794 / 2 ^ 56 : ℚ) * m * (1 + 1/9007199254740992) ≤ t) :
    triggerValue (14757395258967641293 / 2 ^ 67) m ≤ t := by
  have herr := fround_error 53 ((7205759403792794 / 2 ^ 56 : ℚ) * m)
  rw [show ((2:ℚ) ^ (-((53:ℕ) : ℤ))) = 1/9007199254740992 by norm_num] at herr
  rw [abs_of_pos (by positivity : (0:ℚ) < (7205759403792794 / 2 ^ 56 : ℚ) * m)] at herr
  have h2 := (abs_le.mp herr).2
  rw [triggerValue, fround53_of64tenth]
  nlinarith [hm]

/-- Lower bound on the computed trigger for the loaded base `"0.10"`. -/
theorem trigger010_gt {m : ℤ} {t : ℚ} (hm : (0:ℚ) < m)
    (h : t < (7205759403792794 / 2 ^ 56 : ℚ) * m * (1 - 1/9007199254740992)) :
    t < triggerValue (14757395258967641293 / 2 ^ 67) m := by
  have herr := fround_error 53 ((7205759403792794 / 2 ^ 56 : ℚ) * m)
  rw [show ((2:ℚ) ^ (-((53:ℕ) : ℤ))) = 1/9007199254740992 by norm_num] at herr
  rw [abs_of_pos (by positivity : (0:ℚ) < (7205759403792794 / 2 ^ 56 : ℚ) * m)] at herr
  have h1 := (abs_le.mp herr).1
  rw [triggerValue, fround53_of64tenth]
  nlinarith [hm]

/-- `IsFibonacciSequence` advances when the move is at or above the
trigger. -/
theorem isFib_ge_adv {change base : ℚ} {fib : List ℤ} {i : ℕ} {m : ℤ}
    (hg : fib.get? i = some m) (hcond : triggerValue base m ≤ |fround 53 change|) :
    IsFibonacciSequence change base fib i = some (i + 1) := by
  unfold IsFibonacciSequence
  rw [hg, Option.map_some', if_pos hcond]

/-- `IsFibonacciSequence` keeps the index when the move is below the
trigger. -/
theorem isFib_lt_stop {change base : ℚ} {fib : List ℤ} {i : ℕ} {m : ℤ}
    (hg : fib.get? i = some m) (hcond : |fround 53 change| < triggerValue base m) :
    IsFibonacciSequence change base fib i = some i := by
  unfold IsFibonacciSequence
  rw [hg, Option.map_some', if_neg (not_le.mpr hcond)]

/-- One advancing step of the ratchet loop under the loaded base `"0.10"`. -/
theorem ratchet010_adv {chg : ℚ} {i : ℕ} {m : ℤ}
    (hg : fibonacciSequence.get? i = some m) (hm : (0:ℚ) < m)
    (hle : (7205759403792794 / 2 ^ 56 : ℚ) * m * (1 + 1/9007199254740992) ≤ |fround 53 chg|) :
    ratchetLoop chg (14757395258967641293 / 2 ^ 67) fibonacciSequence i =
      ratchetLoop chg (14757395258967641293 / 2 ^ 67) fibonacciSequence (i + 1) :=
  ratchetLoop_adv (isFib_ge_adv hg (trigger010_le hm hle))

/-- The stopping step of the ratchet loop under the loaded base `"0.10"`. -/
theorem ratchet010_stop {chg : ℚ} {i : ℕ} {m : ℤ}
    (hg : fibonacciSequence.get? i = some m) (hm : (0:ℚ) < m)
    (hgt : |fround 53 chg| < (7205759403792794 / 2 ^ 56 : ℚ) * m * (1 - 1/9007199254740992)) :
    ratchetLoop chg (14757395258967641293 / 2 ^ 67) fibonacciSequence i = some i :=
  ratchetLoop_stop (isFib_lt_stop hg (trigger010_gt hm hgt))

/-- Under the loaded base `"0.10"`, a 10-percent move ratchets the index from
0 all the way to 10 (the triggers 0.1%, 0.2%, …, 8.9% all pass; 14.4%
fails). -/
theorem ratchet010_ten :
    ratchetLoop 10 (14757395258967641293 / 2 ^ 67) fibonacciSequence 0 = some 10 := by
  have habs : |fround 53 (10:ℚ)| = 10 := by
    rw [fround53_ten, abs_of_pos (by norm_num : (0:ℚ) < 10)]
  rw [ratchet010_adv (m := 1) (by rw [fibSeq_eval]; rfl) (by norm_num) (by rw [habs]; norm_num)]
  rw [ratchet010_adv (m := 2) (by rw [fibSeq_eval]; rfl) (by norm_num) (by rw [habs]; norm_num)]
  rw [ratchet010_adv (m := 3) (by rw [fibSeq_eval]; rfl) (by norm_num) (by rw [habs]; norm_num)]
  rw [ratchet010_adv (m := 5) (by rw [fibSeq_eval]; rfl) (by norm_num) (by rw [habs]; norm_num)]
  rw [ratchet010_adv (m := 8) (by rw [fibSeq_eval]; rfl) (by norm_num) (by rw [habs]; norm_num)]
  rw [ratchet010_adv (m := 13) (by rw [fibSeq_eval]; rfl) (by norm_num) (by rw [habs]; norm_num)]
  rw [ratchet010_adv (m := 21) (by rw [fibSeq_eval]; rfl) (by norm_num) (by rw [habs]; norm_num)]
  rw [ratchet010_adv (m := 34) (by rw [fibSeq_eval]; rfl) (by norm_num) (by rw [habs]; norm_num)]
  rw [ratchet010_adv (m := 55) (by rw [fibSeq_eval]; rfl) (by norm_num) (by rw [habs]; norm_num)]
  rw [ratchet010_adv (m := 89) (by rw [fibSeq_eval]; rfl) (by norm_num) (by rw [habs]; norm_num)]
  exact ratchet010_stop (m := 144) (by rw [fibSeq_eval]; rfl) (by norm_num)
    (by rw [habs]; norm_num)

/-- Under the loaded base `"0.10"`, a 20-percent move ratchets the index from
0 to 11 (14.4% passes, 23.3% fails). -/
theorem ratchet010_twenty :
    ratchetLoop 20 (14757395258967641293 / 2 ^ 67) fibonacciSequence 0 = some 11 := by
  have habs : |fround 53 (20:ℚ)| = 20 := by
    rw [fround53_twenty, abs_of_pos (by norm_num : (0:ℚ) < 20)]
  rw [ratchet010_adv (m := 1) (by rw [fibSeq_eval]; rfl) (by norm_num) (by rw [habs]; norm_num)]
  rw [ratchet010_adv (m := 2) (by rw [fibSeq_eval]; rfl) (by norm_num) (by rw [habs]; norm_num)]
  rw [ratchet010_adv (m := 3) (by rw [fibSeq_eval]; rfl) (by norm_num) (by rw [habs]; norm_num)]
  rw [ratchet010_adv (m := 5) (by rw [fibSeq_eval]; rfl) (by norm_num) (by rw [habs]; norm_num)]
  rw [ratchet010_adv (m := 8) (by rw [fibSeq_eval]; rfl) (by norm_num) (by rw [habs]; norm_num)]
  rw [ratchet010_adv (m := 13) (by rw [fibSeq_eval]; rfl) (by norm_num) (by rw [habs]; norm_num)]
  rw [ratchet010_adv (m := 21) (by rw [fibSeq_eval]; rfl) (by norm_num) (by rw [habs]; norm_num)]
  rw [ratchet010_adv (m := 34) (by rw [fibSeq_eval]; rfl) (by norm_num) (by rw [habs]; norm_num)]
  rw [ratchet010_adv (m := 55) (by rw [fibSeq_eval]; rfl) (by norm_num) (by rw [habs]; norm_num)]
  rw [ratchet010_adv (m := 89) (by rw [fibSeq_eval]; rfl) (by norm_num) (by rw [habs]; norm_num)]
  rw [ratchet010_adv (m := 144) (by rw [fibSeq_eval]; rfl) (by norm_num) (by rw [habs]; norm_num)]
  exact ratchet010_stop (m := 233) (by rw [fibSeq_eval]; rfl) (by norm_num)
    (by rw [habs]; norm_num)

theorem storedUp_set_self (st : LogMap) (key : String) (v : LogData) :
    storedUp (setEntry st key v) key = v.UpIndex := by
  rw [storedUp, getEntry_setEntry_self]

theorem storedDown_set_self (st : LogMap) (key : String) (v : LogData) :
    storedDown (setEntry st key v) key = v.DownIndex := by
  rw [storedDown, getEntry_setEntry_self]

theorem storedFlag_set_self (st : LogMap) (key : String) (v : LogData) :
    storedFlag (setEntry st key v) key = v.InitPrice := by
  rw [storedFlag, getEntry_setEntry_self]

theorem storedUp_eq_of_get {st : LogMap} {key : String} {d : LogData}
    (h : getEntry st key = some d) : storedUp st key = d.UpIndex := by
  rw [storedUp, h]

theorem storedDown_eq_of_get {st : LogMap} {key : String} {d : LogData}
    (h : getEntry st key = some d) : storedDown st key = d.DownIndex := by
  rw [storedDown, h]

theorem storedFlag_eq_of_get {st : LogMap} {key : String} {d : LogData}
    (h : getEntry st key = some d) : storedFlag st key = d.InitPrice := by
  rw [storedFlag, h]

/-- Characterization of `GetLogData`: the returned record is the stored (or
freshly created) one, its fields agree with the `stored*` readings of the
input map, and no other key is affected. -/
theorem GetLogData_spec (code day : String) (st : LogMap) :
    getEntry (GetLogData code day st).2 (code ++ day) = some (GetLogData code day st).1 ∧
    (GetLogData code day st).1.UpIndex = storedUp st (code ++ day) ∧
    (GetLogData code day st).1.DownIndex = storedDown st (code ++ day) ∧
    (GetLogData code day st).1.InitPrice = storedFlag st (code ++ day) ∧
    ∀ k, k ≠ code ++ day → getEntry (GetLogData code day st).2 k = getEntry st k := by
  cases hge : getEntry st (code ++ day) with
  | some d =>
    refine ⟨?_, ?_, ?_, ?_, ?_⟩ <;>
      simp [GetLogData, storedUp, storedDown, storedFlag, hge]
  | none =>
    refine ⟨?_, ?_, ?_, ?_, ?_⟩
    · simp [GetLogData, hge, getEntry_setEntry_self]
    · simp [GetLogData, storedUp, hge]
    · simp [GetLogData, storedDown, hge]
    · simp [GetLogData, storedFlag, hge]
    · intro k hk
      simp [GetLogData, hge, getEntry_setEntry_ne st (code ++ day) k _ hk]

/-- State effect of one `IsUpDownPrice` call: within the `(code, day)` key
the rung indices never decrease and the gap flag is untouched; every other
key is untouched. -/
theorem IsUpDownPrice_state (codeItem : CodeRule) (item : JSONData) (day : String)
    (st st' : LogMap) (l l' : String)
    (h : IsUpDownPrice codeItem item day st l = some (st', l')) :
    storedUp st (item.Code ++ day) ≤ storedUp st' (item.Code ++ day) ∧
    storedDown st (item.Code ++ day) ≤ storedDown st' (item.Code ++ day) ∧
    storedFlag st' (item.Code ++ day) = storedFlag st (item.Code ++ day) ∧
    ∀ k, k ≠ item.Code ++ day → getEntry st' k = getEntry st k := by
  obtain ⟨hget, hup, hdown, hflag, hother⟩ := GetLogData_spec item.Code day st
  unfold IsUpDownPrice at h
  split at h
  · -- up branch
    split at h
    · simp at h
    · rename_i up hupeq
      dsimp only at h
      split at h
      · simp at h
      · rename_i index hloop
        have hge := ratchetLoop_ge hloop
        split at h
        · -- the loop advanced: the record is rewritten with the new UpIndex
          rename_i hne
          rw [Option.some.injEq, Prod.mk.injEq] at h
          obtain ⟨hst, hl⟩ := h
          subst hst
          refine ⟨?_, ?_, ?_, ?_⟩
          · rw [storedUp_set_self]
            dsimp only
            omega
          · rw [storedDown_set_self]
            dsimp only
            omega
          · rw [storedFlag_set_self]
            dsimp only
            exact hflag
          · intro k hk
            rw [getEntry_setEntry_ne _ _ _ _ hk, hother k hk]
        · rw [Option.some.injEq, Prod.mk.injEq] at h
          obtain ⟨hst, hl⟩ := h
          subst hst
          refine ⟨?_, ?_, ?_, fun k hk => hother k hk⟩
          · rw [storedUp_eq_of_get hget]; omega
          · rw [storedDown_eq_of_get hget]; omega
          · rw [storedFlag_eq_of_get hget]; exact hflag
  · -- equal: nothing happens
    rw [Option.some.injEq, Prod.mk.injEq] at h
    obtain ⟨hst, hl⟩ := h
    subst hst
    exact ⟨le_refl _, le_refl _, rfl, fun k _ => rfl⟩
  · -- down branch
    split at h
    · simp at h
    · rename_i down hdowneq
      dsimp only at h
      split at h
      · simp at h
      · rename_i index hloop
        have hge := ratchetLoop_ge hloop
        split at h
        · rename_i hne
          rw [Option.some.injEq, Prod.mk.injEq] at h
          obtain ⟨hst, hl⟩ := h
          subst hst
          refine ⟨?_, ?_, ?_, ?_⟩
          · rw [storedUp_set_self]
            dsimp only
            omega
          · rw [storedDown_set_self]
            dsimp only
            omega
          · rw [storedFlag_set_self]
            dsimp only
            exact hflag
          · intro k hk
            rw [getEntry_setEntry_ne _ _ _ _ hk, hother k hk]
        · rw [Option.some.injEq, Prod.mk.injEq] at h
          obtain ⟨hst, hl⟩ := h
          subst hst
          refine ⟨?_, ?_, ?_, fun k hk => hother k hk⟩
          · rw [storedUp_eq_of_get hget]; omega
          · rw [storedDown_eq_of_get hget]; omega
          · rw [storedFlag_eq_of_get hget]; exact hflag

/-- State effect of one `IsInitPrice` call: afterwards the gap flag for the
`(code, day)` key is set; if it was already set nothing at all happens (no
state change, no output); the rung indices and all other keys are
untouched. -/
theorem IsInitPrice_state (item : JSONData) (day : String) (st : LogMap) (l : String) :
    storedFlag (IsInitPrice item day st l).1 (item.Code ++ day) = true ∧
    (storedFlag st (item.Code ++ day) = true → IsInitPrice item day st l = (st, l)) ∧
    storedUp (IsInitPrice item day st l).1 (item.Code ++ day) = storedUp st (item.Code ++ day) ∧
    storedDown (IsInitPrice item day st l).1 (item.Code ++ day) = storedDown st (item.Code ++ day) ∧
    ∀ k, k ≠ item.Code ++ day → getEntry (IsInitPrice item day st l).1 k = getEntry st k := by
  obtain ⟨hget, hup, hdown, hflag, hother⟩ := GetLogData_spec item.Code day st
  cases hfl : storedFlag st (item.Code ++ day) with
  | true =>
    have hrec : (GetLogData item.Code day st).1.InitPrice = true := by rw [hflag, hfl]
    have hsome : getEntry st (item.Code ++ day) = some (GetLogData item.Code day st).1 := by
      unfold storedFlag at hfl
      unfold GetLogData
      cases hge : getEntry st (item.Code ++ day) with
      | some d => simp [hge]
      | none => rw [hge] at hfl; simp at hfl
    have hsnd : (GetLogData item.Code day st).2 = st := by
      unfold GetLogData
      rw [hsome]
    have heval : IsInitPrice item day st l = (st, l) := by
      unfold IsInitPrice
      rw [hrec, hsnd]
      simp
    rw [heval]
    exact ⟨by rw [hfl], fun _ => rfl, rfl, rfl, fun _ _ => rfl⟩
  | false =>
    have hrec : (GetLogData item.Code day st).1.InitPrice = false := by rw [hflag, hfl]
    have heval : (IsInitPrice item day st l).1 =
        setEntry (GetLogData item.Code day st).2 (item.Code ++ day)
          { (GetLogData item.Code day st).1 with InitPrice := true } := by
      unfold IsInitPrice
      rw [hrec]
      simp
    rw [heval]
    refine ⟨?_, ?_, ?_, ?_, ?_⟩
    · rw [storedFlag_set_self]
    · intro hcontra; exact absurd hcontra (by simp [hfl])
    · rw [storedUp_set_self]
      dsimp only
      omega
    · rw [storedDown_set_self]
      dsimp only
      omega
    · intro k hk
      rw [getEntry_setEntry_ne _ _ _ _ hk, hother k hk]

/-! ### Concrete scenario evaluations -/

theorem text2_zero : text2 0 = "0.00" := by
  have h : roundNearestEven ((0:ℚ) * 100) = 0 := by
    apply roundNE_eq_of_near <;> norm_num
  unfold text2
  rw [h]
  decide

theorem r_zero : r "0.00" = "𝟬.𝟬𝟬" := by decide

theorem cmp_eq (a : ℚ) : Cmp a a = .eq := by simp [Cmp]

/-- When open equals the current price, `IsUpDownPrice` is a no-op. -/
theorem IsUpDownPrice_eq_case (codeItem : CodeRule) (item : JSONData) (day : String)
    (st : LogMap) (l : String) (heq : Cmp item.Open item.Trade = .eq) :
    IsUpDownPrice codeItem item day st l = some (st, l) := by
  unfold IsUpDownPrice
  rw [heq]

/-- First gap-check of the day on a flat open (prior close = open): a line
with an empty classification and a 0.00% figure is emitted and the flag
set. -/
theorem IsInitPrice_equal_eval :
    IsInitPrice ⟨"X", 10, 10, 10, "159973"⟩ "2026-10-11" [] "" =
      ([("1599732026-10-11", ⟨true, 0, 0⟩)], "【X】 𝟬.𝟬𝟬%\n\n") := by
  unfold IsInitPrice
  rw [cmp_eq]
  rw [show GetLogData "159973" "2026-10-11" [] =
    (⟨false, 0, 0⟩, [("1599732026-10-11", ⟨false, 0, 0⟩)]) from rfl]
  rw [cpc_self]
  dsimp only
  rw [text2_zero, r_zero]
  decide

/-- A later gap-check of the same day: the flag is set, nothing happens. -/
theorem IsInitPrice_already_eval :
    IsInitPrice ⟨"X", 10, 10, 10, "159973"⟩ "2026-10-11"
      [("1599732026-10-11", ⟨true, 2, 3⟩)] "x" =
      ([("1599732026-10-11", ⟨true, 2, 3⟩)], "x") := by
  unfold IsInitPrice
  rw [show GetLogData "159973" "2026-10-11" [("1599732026-10-11", ⟨true, 2, 3⟩)] =
    (⟨true, 2, 3⟩, [("1599732026-10-11", ⟨true, 2, 3⟩)]) from by
      unfold GetLogData
      rw [show getEntry [("1599732026-10-11", (⟨true, 2, 3⟩ : LogData))]
        ("159973" ++ "2026-10-11") = some ⟨true, 2, 3⟩ from by decide]]
  simp

/-- A full successful cycle on a flat quote: the gap line is emitted (state
mutated), the escalation check is a no-op. -/
theorem Task_gap_eval :
    Task "159973-0-0" (.ok [⟨"X", 10, 10, 10, "159973"⟩]) (.ok []) "2026-10-11" [] "" =
      some ([("1599732026-10-11", ⟨true, 0, 0⟩)], "【X】 𝟬.𝟬𝟬%\n\n") := by
  unfold Task
  dsimp only
  rw [show parseCodes "159973-0-0" =
    [⟨"159973", setStringModel "0", setStringModel "0"⟩] from rfl]
  rw [show convertToMap ([⟨"X", 10, 10, 10, "159973"⟩] ++ []) =
    [("159973", ⟨"X", 10, 10, 10, "159973"⟩)] from rfl]
  unfold evalRules
  rw [show getEntry [("159973", (⟨"X", 10, 10, 10, "159973"⟩ : JSONData))] "159973" =
    some ⟨"X", 10, 10, 10, "159973"⟩ from rfl]
  dsimp only
  rw [IsInitPrice_equal_eval]
  dsimp only
  rw [IsUpDownPrice_eq_case _ _ _ _ _ (cmp_eq 10)]
  unfold evalRules
  rfl

/-- The same cycle with a failing webhook delivery: `log.Fatalf` fires. -/
theorem mainStep_fatal_eval :
    mainStep "159973-0-0" ⟨.ok [⟨"X", 10, 10, 10, "159973"⟩], .ok [], "2026-10-11", true⟩ [] =
      .exited [("1599732026-10-11", ⟨true, 0, 0⟩)] := by
  unfold mainStep
  rw [Task_gap_eval]
  dsimp only
  rw [if_pos (by decide : ¬("【X】 𝟬.𝟬𝟬%\n\n" : String) = "")]
  rfl

/-- Every rule produced by the `parseCodes` loop comes from an item that
split into exactly three fields, and carries exactly the (possibly failed)
`SetString` results of those fields. -/
theorem parseCodesItems_shape : ∀ (items : List (List Char)) (rule : CodeRule),
    rule ∈ parseCodesItems items →
    ∃ item ∈ items, ∃ p0 p1 p2, item.splitOn '-' = [p0, p1, p2] ∧
      rule = ⟨String.mk p0, setStringModel (String.mk p1), setStringModel (String.mk p2)⟩ := by
  intro items
  induction items with
  | nil => intro rule h; simp [parseCodesItems] at h
  | cons item rest ih =>
    intro rule h
    unfold parseCodesItems at h
    split at h
    · rename_i p0 p1 p2 hsplit
      rcases List.mem_cons.mp h with heq | hmem
      · exact ⟨item, List.mem_cons_self _ _, p0, p1, p2, hsplit, heq⟩
      · obtain ⟨it, hit, hrest⟩ := ih rule hmem
        exact ⟨it, List.mem_cons_of_mem _ hit, hrest⟩
    · obtain ⟨it, hit, hrest⟩ := ih rule h
      exact ⟨it, List.mem_cons_of_mem _ hit, hrest⟩

theorem fround64_third : fround 64 (1/3 : ℚ) = 12297829382473034411 / 2 ^ 65 := by
  have h := fround_eq_of (p := 64) (q := 1/3) (e := -2) (n := 12297829382473034411)
    (by norm_num) (by norm_num) (by norm_num) (by norm_num) (by norm_num)
  rw [h]; norm_num

theorem fround64_third100 :
    fround 64 ((12297829382473034411 / 2 ^ 65 : ℚ) * 100) = 9607679205057058134 / 2 ^ 58 := by
  have h := fround_eq_of (p := 64) (q := (12297829382473034411 / 2 ^ 65 : ℚ) * 100)
    (e := 5) (n := 9607679205057058134)
    (by norm_num) (by norm_num) (by norm_num) (by norm_num) (by norm_num)
  rw [h]; norm_num

/-- `(3-2)/3*100` as the code computes it: a binary approximation of
33.333…%, not the exact decimal value. -/
theorem cpc_3_2 : calculatePercentageChange 3 2 = 9607679205057058134 / 2 ^ 58 := by
  unfold calculatePercentageChange
  rw [show (3:ℚ) - 2 = 1 by norm_num, fround64_one,
    show (1:ℚ)/3 = 1/3 from rfl, fround64_third, fround64_third100]

/-! ### The claims -/

/-- C1: the ratchet is monotonic.  For every threshold `t > 0`, ladder and
starting index, whenever the escalation check (`IsFibonacciSequence`, and its
iteration `ratchetLoop` inside `IsUpDownPrice`) returns an index, that index
is ≥ the starting one; and one `IsUpDownPrice` call never decreases the
stored `UpIndex`/`DownIndex` of its `(code, day)` key and never touches any
other key — so a stored rung index only ever increases within a calendar day
and is reset only by day rollover, which switches to a fresh state key. -/
theorem C1_ratchet_monotonic (t change : ℚ) (ladder : List ℤ) (idx j : ℕ)
    (codeItem : CodeRule) (item : JSONData) (day : String)
    (st st' : LogMap) (l l' : String) (ht : 0 < t) :
    (IsFibonacciSequence change t ladder idx = some j → idx ≤ j) ∧
    (ratchetLoop change t ladder idx = some j → idx ≤ j) ∧
    (IsUpDownPrice codeItem item day st l = some (st', l') →
      storedUp st (item.Code ++ day) ≤ storedUp st' (item.Code ++ day) ∧
      storedDown st (item.Code ++ day) ≤ storedDown st' (item.Code ++ day) ∧
      ∀ k, k ≠ item.Code ++ day → getEntry st' k = getEntry st k) := by
  refine ⟨fun h => ?_, fun h => ratchetLoop_ge h, fun h => ?_⟩
  · have := isFib_some h
    omega
  · obtain ⟨h1, h2, _, h4⟩ := IsUpDownPrice_state codeItem item day st st' l l' h
    exact ⟨h1, h2, h4⟩

theorem C1_witness :
    0 < (1:ℚ) ∧
    (storedUp [] ("159973" ++ "2026-10-11") ≤ storedUp [] ("159973" ++ "2026-10-11") ∧
     storedDown [] ("159973" ++ "2026-10-11") ≤ storedDown [] ("159973" ++ "2026-10-11") ∧
     ∀ k, k ≠ "159973" ++ "2026-10-11" → getEntry ([] : LogMap) k = getEntry ([] : LogMap) k) := by
  refine ⟨by norm_num, ?_⟩
  exact (C1_ratchet_monotonic 1 0 [] 0 0 ⟨"159973", some 1, some 1⟩
    ⟨"X", 10, 10, 10, "159973"⟩ "2026-10-11" [] [] "" "" (by norm_num)).2.2
    (IsUpDownPrice_eq_case _ _ _ _ _ (cmp_eq 10))

/-- C2 counterexample: with the loaded base threshold `"0.10"` and a price
move of exactly 10% (trade 10 against open 9, as `calculatePercentageChange`
computes it), the ratchet loop does **not** advance the rung index from 0 to
1 — `movePct` is in percent units (10.0) while the base is used raw (0.10),
so the loop runs all the way to index 10. -/
theorem C2_counterexample :
    parseCodes "159973-0.10-0.01" =
      [{ Code := "159973", Up := some (14757395258967641293 / 2 ^ 67),
         Down := some (11805916207174113034 / 2 ^ 70) }] ∧
    calculatePercentageChange 10 9 = 10 ∧
    ratchetLoop (calculatePercentageChange 10 9) (14757395258967641293 / 2 ^ 67)
      fibonacciSequence 0 ≠ some 1 := by
  refine ⟨?_, cpc_10_9, ?_⟩
  · rw [show parseCodes "159973-0.10-0.01" =
      [⟨"159973", setStringModel "0.10", setStringModel "0.01"⟩] from rfl,
      setString_010, setString_001]
  · rw [cpc_10_9, ratchet010_ten]
    simp

/-- C2 amended: with base threshold `"0.10"` as loaded (used in raw units
against a percent-valued move), a 10% move ratchets the index from 0 to 10
and a 20% move from 0 to 11 in a single cycle — multi-rung jumps do occur,
but land at these indices, not at 1 and 2. -/
theorem C2_multirung_actual :
    calculatePercentageChange 10 9 = 10 ∧
    ratchetLoop (calculatePercentageChange 10 9) (14757395258967641293 / 2 ^ 67)
      fibonacciSequence 0 = some 10 ∧
    calculatePercentageChange 10 8 = 20 ∧
    ratchetLoop (calculatePercentageChange 10 8) (14757395258967641293 / 2 ^ 67)
      fibonacciSequence 0 = some 11 := by
  refine ⟨cpc_10_9, ?_, cpc_10_8, ?_⟩
  · rw [cpc_10_9]
    exact ratchet010_ten
  · rw [cpc_10_8]
    exact ratchet010_twenty

/-- C3 counterexample: prior close = open (both 10), gap-notified state
unset — the claim says no message is emitted, but the code appends a line
(with an empty classification glyph). -/
theorem C3_counterexample :
    (IsInitPrice ⟨"X", 10, 10, 10, "159973"⟩ "2026-10-11" [] "").2 ≠ "" := by
  rw [IsInitPrice_equal_eval]
  decide

/-- C3 amended: when prior close equals open no classification is produced
(the glyph is empty), but on the first cycle of the day a line is still
emitted (showing 0.00% with no glyph) and the flag set; only when the
gap-notified flag is already set is nothing emitted. -/
theorem C3_equal_still_emits :
    IsInitPrice ⟨"X", 10, 10, 10, "159973"⟩ "2026-10-11" [] "" =
      ([("1599732026-10-11", ⟨true, 0, 0⟩)], "【X】 𝟬.𝟬𝟬%\n\n") ∧
    IsInitPrice ⟨"X", 10, 10, 10, "159973"⟩ "2026-10-11"
      [("1599732026-10-11", ⟨true, 2, 3⟩)] "x" =
      ([("1599732026-10-11", ⟨true, 2, 3⟩)], "x") :=
  ⟨IsInitPrice_equal_eval, IsInitPrice_already_eval⟩

/-- C4 counterexample: a cycle that emits output and whose webhook delivery
fails kills the whole process (`log.Fatalf` in `SendWx`), so a later
scheduled cycle never runs — the claim says the process keeps running. -/
theorem C4_counterexample :
    (runMain "159973-0-0"
      [⟨.ok [⟨"X", 10, 10, 10, "159973"⟩], .ok [], "2026-10-11", true⟩,
       ⟨.ok [], .ok [], "2026-10-11", false⟩] []).2 = false := by
  unfold runMain
  rw [mainStep_fatal_eval]

/-- C4 amended: a Notification Sink delivery failure is logged and then
terminates the process via `log.Fatalf`; the AlertState mutations made during
the cycle are not rolled back (the exit state is exactly the state `Task`
computed), but no future cycle ever starts. -/
theorem C4_fatal_amended (codes : String) (inp : CycleInput) (st st1 : LogMap) (l : String)
    (hd : inp.deliveryError = true)
    (ht : Task codes inp.etf inp.lof inp.day st "" = some (st1, l))
    (hl : l ≠ "") :
    mainStep codes inp st = .exited st1 ∧
    ∀ rest, runMain codes (inp :: rest) st = (st1, false) := by
  have hm : mainStep codes inp st = .exited st1 := by
    unfold mainStep
    rw [ht]
    dsimp only
    rw [if_pos hl]
    simp [PrintLog, SendWx, hd]
  refine ⟨hm, fun rest => ?_⟩
  unfold runMain
  rw [hm]

theorem C4_witness :
    mainStep "159973-0-0" ⟨.ok [⟨"X", 10, 10, 10, "159973"⟩], .ok [], "2026-10-11", true⟩ [] =
      .exited [("1599732026-10-11", ⟨true, 0, 0⟩)] ∧
    runMain "159973-0-0" (⟨.ok [⟨"X", 10, 10, 10, "159973"⟩], .ok [], "2026-10-11", true⟩ ::
      [⟨.ok [], .ok [], "2026-10-11", false⟩]) [] =
      ([("1599732026-10-11", ⟨true, 0, 0⟩)], false) := by
  have happ := C4_fatal_amended "159973-0-0"
    ⟨.ok [⟨"X", 10, 10, 10, "159973"⟩], .ok [], "2026-10-11", true⟩ []
    [("1599732026-10-11", ⟨true, 0, 0⟩)] "【X】 𝟬.𝟬𝟬%\n\n" rfl Task_gap_eval (by decide)
  exact ⟨happ.1, happ.2 [⟨.ok [], .ok [], "2026-10-11", false⟩]⟩

/-- C5 counterexample: when the ETF sub-query fails, the cycle records the
failure but `Task` returns immediately — the LOF class, though fetched
successfully and containing a watched instrument, is never evaluated (its
alert state is never even created), contradicting "evaluation continues for
the other classes". -/
theorem C5_counterexample :
    Task "159973-0.10-0.01" (.error "net") (.ok [⟨"X", 10, 9, 10, "159973"⟩])
      "2026-10-11" [] "" = some ([], "从【ETF基金】Api获取数据时出错：net\n\n") ∧
    getEntry ([] : LogMap) ("159973" ++ "2026-10-11") = none :=
  ⟨rfl, rfl⟩

/-- C5 amended: a Data Source failure for the first instrument class is
recorded as cycle output text and the cycle completes normally (no crash, the
error text is delivered), but evaluation is aborted for **all** classes of
that cycle — the early `return` skips the remaining class and every rule. -/
theorem C5_fetch_error_aborts (codes : String) (lofResult : Except String (List JSONData))
    (day : String) (st : LogMap) (l err : String) :
    Task codes (.error err) lofResult day st l =
      some (st, l ++ "从【ETF基金】Api获取数据时出错：" ++ err ++ "\n\n") := rfl

/-- C6 counterexample: the trigger value `base * ladder[0]` for the loaded
base `"0.10"` is computed in binary floating point and differs from the exact
decimal product `0.10 * 1 = 1/10`. -/
theorem C6_counterexample :
    setStringModel "0.10" = some (14757395258967641293 / 2 ^ 67) ∧
    triggerValue (14757395258967641293 / 2 ^ 67) 1 ≠ 1/10 := by
  refine ⟨setString_010, ?_⟩
  rw [triggerValue, fround53_of64tenth, show ((1:ℤ) : ℚ) = 1 by norm_num, mul_one,
    fround53_f64tenth]
  norm_num

/-- C6 amended: thresholds and percentages are computed in rounded binary
floating point (`big.Float` at precision 64, `float64` inside the threshold
test), not exact decimal arithmetic: the trigger `0.10 * 1` is perturbed to
`3602879701896397/2^55 ≠ 1/10`, and the computed percentage for
`(3-2)/3*100` is a binary approximation different from `100/3`; the
two-decimal rendering rounds those binary values. -/
theorem C6_binary_not_decimal :
    setStringModel "0.10" = some (14757395258967641293 / 2 ^ 67) ∧
    triggerValue (14757395258967641293 / 2 ^ 67) 1 = 7205759403792794 / 2 ^ 56 ∧
    (7205759403792794 / 2 ^ 56 : ℚ) ≠ 1/10 ∧
    calculatePercentageChange 3 2 = 9607679205057058134 / 2 ^ 58 ∧
    (9607679205057058134 / 2 ^ 58 : ℚ) ≠ 100/3 := by
  refine ⟨setString_010, ?_, by norm_num, cpc_3_2, by norm_num⟩
  rw [triggerValue, fround53_of64tenth, show ((1:ℤ) : ℚ) = 1 by norm_num, mul_one,
    fround53_f64tenth]

/-- C7: the gap-open check fires at most once per `(code, day)` key: after
any `IsInitPrice` call the per-day flag is set; a call that finds the flag
already set changes neither state nor output; and `IsUpDownPrice` never
touches the flag.  Hence across arbitrarily many cycles of one day at most
one gap line is emitted for the key. -/
theorem C7_gap_once (item : JSONData) (day : String) (st st' : LogMap)
    (l l' : String) (codeItem : CodeRule) :
    storedFlag (IsInitPrice item day st l).1 (item.Code ++ day) = true ∧
    (storedFlag st (item.Code ++ day) = true → IsInitPrice item day st l = (st, l)) ∧
    (IsUpDownPrice codeItem item day st l = some (st', l') →
      storedFlag st' (item.Code ++ day) = storedFlag st (item.Code ++ day)) := by
  obtain ⟨h1, h2, _, _, _⟩ := IsInitPrice_state item day st l
  exact ⟨h1, h2, fun h => (IsUpDownPrice_state codeItem item day st st' l l' h).2.2.1⟩

theorem C7_witness :
    storedFlag (IsInitPrice ⟨"X", 10, 10, 10, "159973"⟩ "2026-10-11"
      [("1599732026-10-11", ⟨true, 2, 3⟩)] "x").1 ("159973" ++ "2026-10-11") = true ∧
    IsInitPrice ⟨"X", 10, 10, 10, "159973"⟩ "2026-10-11"
      [("1599732026-10-11", ⟨true, 2, 3⟩)] "x" =
      ([("1599732026-10-11", ⟨true, 2, 3⟩)], "x") ∧
    storedFlag [("1599732026-10-11", (⟨true, 2, 3⟩ : LogData))] ("159973" ++ "2026-10-11") =
      storedFlag [("1599732026-10-11", (⟨true, 2, 3⟩ : LogData))] ("159973" ++ "2026-10-11") := by
  have happ := C7_gap_once ⟨"X", 10, 10, 10, "159973"⟩ "2026-10-11"
    [("1599732026-10-11", ⟨true, 2, 3⟩)] [("1599732026-10-11", ⟨true, 2, 3⟩)] "x" "x"
    ⟨"159973", some 1, some 1⟩
  exact ⟨happ.1, happ.2.1 (by decide),
    happ.2.2 (IsUpDownPrice_eq_case _ _ _ _ _ (cmp_eq 10))⟩

/-- C8: the ladder has length L = 20; for every index `i < 20` the access
`fibonacciSequence[i]` inside `IsFibonacciSequence` is in bounds (the call
returns a value), while `i ≥ 20` is an out-of-bounds access with no bound
check (a panic, modelled `none`); and the retry loop only ever terminates
normally at an index where the threshold test failed — never because the
ladder ran out. -/
theorem C8_ladder_bounds (change base : ℚ) (i idx j : ℕ) :
    fibonacciSequence.length = 20 ∧
    (i < 20 → (IsFibonacciSequence change base fibonacciSequence i).isSome = true) ∧
    (20 ≤ i → IsFibonacciSequence change base fibonacciSequence i = none) ∧
    (ratchetLoop change base fibonacciSequence idx = some j →
      ∃ m, fibonacciSequence.get? j = some m ∧ |fround 53 change| < triggerValue base m) := by
  have hlen : fibonacciSequence.length = 20 := by rw [fibSeq_eval]; rfl
  refine ⟨hlen, fun hi => ?_, fun hi => ?_, fun h => isFib_stop_inv (ratchetLoop_final h)⟩
  · unfold IsFibonacciSequence
    cases hg : fibonacciSequence.get? i with
    | none =>
      rw [List.get?_eq_none] at hg
      omega
    | some m => simp
  · unfold IsFibonacciSequence
    rw [List.get?_eq_none.mpr (by omega)]
    rfl

theorem C8_witness :
    (IsFibonacciSequence 0 0 fibonacciSequence 0).isSome = true ∧
    IsFibonacciSequence 0 0 fibonacciSequence 20 = none ∧
    ∃ m, fibonacciSequence.get? 10 = some m ∧
      |fround 53 (10:ℚ)| < triggerValue (14757395258967641293 / 2 ^ 67) m := by
  refine ⟨(C8_ladder_bounds 0 0 0 0 0).2.1 (by norm_num),
    (C8_ladder_bounds 0 0 20 0 0).2.2.1 (by norm_num),
    (C8_ladder_bounds 10 (14757395258967641293 / 2 ^ 67) 0 10 10).2.2.2 ?_⟩
  exact ratchet010_stop (m := 144) (by rw [fibSeq_eval]; rfl) (by norm_num)
    (by rw [fround53_ten, abs_of_pos (by norm_num : (0:ℚ) < 10)]; norm_num)

/-- C9 counterexample: an entry whose up-threshold does not parse is **not**
dropped — `parseCodes` keeps the rule, with a nil (`none`) up-threshold, so
not every loaded rule has well-formed thresholds. -/
theorem C9_counterexample :
    parseCodes "159201-abc-0.01" =
      [{ Code := "159201", Up := none, Down := some (11805916207174113034 / 2 ^ 70) }] ∧
    ({ Code := "159201", Up := none,
       Down := some (11805916207174113034 / 2 ^ 70) } : CodeRule).Up = none := by
  refine ⟨?_, rfl⟩
  rw [show parseCodes "159201-abc-0.01" =
    [⟨"159201", setStringModel "abc", setStringModel "0.01"⟩] from rfl,
    setString_001, show setStringModel "abc" = none from rfl]

/-- C9 amended: entries with the wrong field count are dropped silently
(every loaded rule comes from an entry that split into exactly three fields,
carrying the `SetString` results of those fields), but an entry with an
unparsable threshold is kept, with a nil threshold pointer. -/
theorem C9_malformed_handling :
    (∀ (codes : String) (rule : CodeRule), rule ∈ parseCodes codes →
      ∃ item ∈ codes.data.splitOn ',', ∃ p0 p1 p2, item.splitOn '-' = [p0, p1, p2] ∧
        rule = ⟨String.mk p0, setStringModel (String.mk p1), setStringModel (String.mk p2)⟩) ∧
    parseCodes "159973-0.10-0.01,bad,159201-abc-0.01" =
      [⟨"159973", some (14757395258967641293 / 2 ^ 67), some (11805916207174113034 / 2 ^ 70)⟩,
       ⟨"159201", none, some (11805916207174113034 / 2 ^ 70)⟩] := by
  constructor
  · intro codes rule hr
    exact parseCodesItems_shape _ rule hr
  · rw [show parseCodes "159973-0.10-0.01,bad,159201-abc-0.01" =
      [⟨"159973", setStringModel "0.10", setStringModel "0.01"⟩,
       ⟨"159201", setStringModel "abc", setStringModel "0.01"⟩] from rfl,
      setString_010, setString_001, show setStringModel "abc" = none from rfl]

theorem C9_witness :
    ∃ item ∈ "159201-abc-0.01".data.splitOn ',', ∃ p0 p1 p2,
      item.splitOn '-' = [p0, p1, p2] ∧
      ({ Code := "159201", Up := none, Down := setStringModel "0.01" } : CodeRule) =
        ⟨String.mk p0, setStringModel (String.mk p1), setStringModel (String.mk p2)⟩ := by
  apply C9_malformed_handling.1 "159201-abc-0.01"
    ⟨"159201", none, setStringModel "0.01"⟩
  rw [show parseCodes "159201-abc-0.01" =
    [⟨"159201", setStringModel "abc", setStringModel "0.01"⟩] from rfl,
    show setStringModel "abc" = none from rfl]
  exact List.mem_singleton.mpr rfl

/-- C10: a single `IsFibonacciSequence` call advances the rung index by at
most one — whenever it returns a value, that value is the given index or its
successor; multi-rung crossings arise only from the caller's retry loop. -/
theorem C10_single_step (currentChange baseThreshold : ℚ) (fib : List ℤ) (idx j : ℕ)
    (h : IsFibonacciSequence currentChange baseThreshold fib idx = some j) :
    j = idx ∨ j = idx + 1 :=
  (isFib_some h).2

theorem C10_witness :
    IsFibonacciSequence 0 0 [1, 2, 3] 0 = some 1 ∧ (1 = 0 ∨ 1 = 0 + 1) := by
  have hpre : IsFibonacciSequence 0 0 [1, 2, 3] 0 = some 1 := by
    simp [IsFibonacciSequence, triggerValue, fround]
  exact ⟨hpre, C10_single_step 0 0 [1, 2, 3] 0 1 hpre⟩

end Monitor
